import Mathlib

/-!
The ARP protocol object of libusi++ (`src/arp.cc`) over the Layer2 engine (`usi++/Layer2.h`)

A shallow embedding of `usipp::ARP` and proofs about its size guard, its
serialisation into the transmit buffer, its capture path and its defaults.

Conventions of the embedding

* `size_t` values are `Nat`, every `size_t` addition is reduced `% 2 ^ w` where
  `w` is the width of `size_t` on the host; `int` values are `Int`, and the `int`
  sum `off + (int)sizeof(arphdr)` of the short-packet test is taken in 32-bit
  two's complement (`int_add`), which is what the machine does when the sum
  leaves the range of `int`.
* memory is a `List Byte`; a copy that would leave its buffers has no defined
  result and is `none`.
* a `uint16_t` struct member holds the value the host sees; `arphdr.bytes` is the
  memory image of the struct, in host order, so that a member written through
  `htons` lies big-endian in memory whatever the host is.
* `Layer2.h` only declares the engine's virtual methods; their bodies are not
  part of the sources, so `ARP` is verified against every implementation of
  that interface (`Layer2`).
-/

set_option autoImplicit false
set_option linter.unusedVariables false

namespace usipp

/-! ## Machine data -/

/-- One octet of memory. -/
abbrev Byte := Fin 256

/-- A `uint16_t` value. -/
abbrev U16 := Fin 65536

/-- The host the library runs on: its byte order and the width of `size_t`. -/
structure Host where
  little_endian : Bool
  size_bits : Nat
  deriving DecidableEq, Repr

/-- Addition of two `size_t` values: the sum modulo `2 ^ size_bits`. -/
def Host.size_add (host : Host) (a b : Nat) : Nat :=
  (a + b) % 2 ^ host.size_bits

/-- The largest value of the C type `int` (32 bits). -/
def INT_MAX : Int := 2147483647

/-- Addition of two `int` values as the machine performs it: the sum in 32-bit two's
complement, so that a sum above `INT_MAX` comes out negative. -/
def int_add (a b : Int) : Int :=
  (a + b + 2147483648) % 4294967296 - 2147483648

/-- Exchange the two octets of a 16-bit value. -/
def bswap16 (x : U16) : U16 :=
  ⟨(x.val % 256) * 256 + x.val / 256, by omega⟩

/-- The conversion `htons`: its argument is converted to `uint16_t`, and the octets are
exchanged on a little-endian host. -/
def htons (host : Host) (v : Nat) : U16 :=
  let x : U16 := ⟨v % 65536, Nat.mod_lt _ (by decide)⟩
  if host.little_endian then bswap16 x else x

/-- The conversion `ntohs`. -/
def ntohs (host : Host) (x : U16) : U16 :=
  if host.little_endian then bswap16 x else x

/-- The two octets a `uint16_t` member occupies in memory, lowest address first. -/
def store16 (host : Host) (x : U16) : List Byte :=
  let hi : Byte := ⟨x.val / 256, by omega⟩
  let lo : Byte := ⟨x.val % 256, by omega⟩
  if host.little_endian then [lo, hi] else [hi, lo]

/-- The `uint16_t` member found in two octets of memory, lowest address first. -/
def load16 (host : Host) (b0 b1 : Byte) : U16 :=
  if host.little_endian then ⟨b1.val * 256 + b0.val, by omega⟩
  else ⟨b0.val * 256 + b1.val, by omega⟩

/-- The C library's `memcpy(dst + pos, src, n)`: the first `n` octets of `src` replace the
octets `pos .. pos + n` of `dst`. Leaving either buffer is undefined: `none`. -/
def memcpy (dst : List Byte) (pos : Nat) (src : List Byte) (n : Nat) : Option (List Byte) :=
  if pos + n ≤ dst.length ∧ n ≤ src.length then
    some (dst.take pos ++ src.take n ++ dst.drop (pos + n))
  else none

/-- Read `n` octets of `s` starting at the `int` position `off`, as `memcpy(&x, s + off, n)`
and `string(s + off, n)` do. Leaving the buffer is undefined: `none`. -/
def memread (s : List Byte) (off : Int) (n : Nat) : Option (List Byte) :=
  if 0 ≤ off ∧ off.toNat + n ≤ s.length then some ((s.drop off.toNat).take n) else none

/-! ## Declarations the sources use but do not contain -/

/-- The constants of `usi-structs.h` that `arp.cc` refers to (`numbers::arpop_request`,
`numbers::arphrd_ether`, `numbers::eth_p_ip`, `numbers::eth_p_arp`, `max_packet_size`).
That header is not among the sources, so their values are parameters. -/
structure Numbers where
  arpop_request : Nat
  arphrd_ether : Nat
  eth_p_ip : Nat
  eth_p_arp : Nat
  max_packet_size : Nat
  deriving DecidableEq, Repr

/-- Modelled from the spec: `struct arphdr` is declared in `usi-structs.h`, which is not among
the sources. §6 gives its layout as the fixed RFC 826 one: hardware type, protocol type
(16 bits each), hardware and protocol address lengths (8 bits each), operation (16 bits).
The member names are the ones `arp.cc` uses. -/
structure arphdr where
  ar_hrd : U16
  ar_pro : U16
  ar_hln : Byte
  ar_pln : Byte
  ar_op : U16
  deriving DecidableEq, Repr

/-- The value of `sizeof(arphdr)` for the layout above. -/
def sizeof_arphdr : Nat := 8

/-- The memory image of the struct: what `memcpy(tbuf, &arphdr, sizeof(arphdr))` reads. -/
def arphdr.bytes (host : Host) (h : arphdr) : List Byte :=
  store16 host h.ar_hrd ++ store16 host h.ar_pro ++ [h.ar_hln, h.ar_pln] ++ store16 host h.ar_op

/-- The struct whose memory image is the given `sizeof(arphdr)` octets: what
`memcpy(&arphdr, p, sizeof(arphdr))` leaves in the member. -/
def arphdr.ofBytes (host : Host) : List Byte → Option arphdr
  | [b0, b1, b2, b3, b4, b5, b6, b7] =>
    some { ar_hrd := load16 host b0 b1, ar_pro := load16 host b2 b3,
           ar_hln := b4, ar_pln := b5, ar_op := load16 host b6 b7 }
  | _ => none

/-- The result of `memset(&arphdr, 0, sizeof(arphdr))`. -/
def arphdr.zeroed : arphdr :=
  { ar_hrd := 0, ar_pro := 0, ar_hln := 0, ar_pln := 0, ar_op := 0 }

/-- The selector of `Object::die` that says how the diagnostic is reported. -/
inductive errorFuncs where
  | PERROR | HERROR | PCAP | STDERR | RETURN
  deriving DecidableEq, Repr

/-- Modelled from the spec: `Object::die` is declared in `object.h`, which is not among the
sources. §1 and §7 call it the diagnostic plumbing: the message is reported and the operation
fails with the given code. The diagnostic text kept by `Object` is outside the state modelled
here. -/
def die (message : String) (what : errorFuncs) (error : Int) : Int := error

/-- Modelled from the spec: the class `TX_pcap_eth` behind `ARP::pcap_eth_tx` is declared in
`TX_pcap_eth.h`, which is not among the sources. §3 gives the state of a Transmit capability:
link-layer source and destination address, frame ethertype, broadcast flag. -/
structure TX_pcap_eth where
  l2src : List Byte
  l2dst : List Byte
  frame_type : Nat
  bcast : Bool
  deriving DecidableEq, Repr

/-- Modelled from the spec: `TX_pcap_eth::set_type` (§4.2 `setFrameType(code)`) sets the frame
ethertype. -/
def TX_pcap_eth.set_type (tx : TX_pcap_eth) (t : Nat) : TX_pcap_eth :=
  { tx with frame_type := t }

/-- Modelled from the spec: `TX_pcap_eth::broadcast` (§4.2 `setBroadcast()`) enables broadcast
transmission. -/
def TX_pcap_eth.broadcast (tx : TX_pcap_eth) : TX_pcap_eth :=
  { tx with bcast := true }

/-! ## The Layer2 engine, as declared in `usi++/Layer2.h` -/

/-- The methods of `class Layer2` that `arp.cc` calls, over the state `L` of the engine (the
base sub-object together with the capture and transmit capabilities it shares). Each method
gets the state and returns the new state with its result; a buffer passed by pointer comes
back with its new contents, the cursor `int &` with its new value.

* `sendpack l buf len` is `int sendpack(const void *buf, size_t len)`;
* `sniffpack l s len off` is `int sniffpack(void *, size_t, int &)` and yields
  `(state, buffer, cursor, result)`;
* `init_device l dev promisc snaplen` is `int init_device(const std::string &, int, size_t)`;
* `setfilter l f` is `int setfilter(const std::string &)`;
* `timeout l` is `bool timeout()`, documented as "return was timeout?". -/
structure Layer2 (L : Type) where
  sendpack : L → List Byte → Nat → L × Int
  sniffpack : L → List Byte → Nat → Int → L × List Byte × Int × Int
  init_device : L → String → Int → Nat → L × Int
  setfilter : L → String → L × Int
  timeout : L → Bool

/-! ## `class ARP` -/

/-- The state of an `ARP` object: its header, its `Layer2` base and the transmitter behind
`pcap_eth_tx`. -/
structure ARP (L : Type) where
  arphdr : arphdr
  layer2 : L
  pcap_eth_tx : TX_pcap_eth

/-- The constructor `ARP::ARP()`. The `Layer2` base and the `TX_pcap_eth` object it registers are
built by constructors outside the sources and are taken as given. -/
def ARP.ctor {L : Type} (host : Host) (n : Numbers) (l2 : L) (tx : TX_pcap_eth) : ARP L :=
  let arphdr := arphdr.zeroed
  let arphdr := { arphdr with ar_op := htons host n.arpop_request }
  let arphdr := { arphdr with ar_hrd := htons host n.arphrd_ether }
  let arphdr := { arphdr with ar_pro := htons host n.eth_p_ip }
  let arphdr := { arphdr with ar_hln := 6 }
  let arphdr := { arphdr with ar_pln := 4 }
  { arphdr := arphdr, layer2 := l2, pcap_eth_tx := tx }

/-- The method `ARP::get_op`. -/
def ARP.get_op {L : Type} (host : Host) (a : ARP L) : U16 :=
  ntohs host a.arphdr.ar_op

/-- The method `ARP::init_device`. -/
def ARP.init_device {L : Type} (ops : Layer2 L) (n : Numbers) (a : ARP L)
    (dev : String) (promisc : Int) (snaplen : Nat) : ARP L × Int :=
  let (l2, r) := ops.init_device a.layer2 dev promisc snaplen
  let a := { a with layer2 := l2 }
  if r < 0 then (a, -1)
  else
    let (l2, r) := ops.setfilter a.layer2 "arp"
    let a := { a with layer2 := l2 }
    if r < 0 then (a, -1)
    else
      let a := { a with pcap_eth_tx := a.pcap_eth_tx.set_type n.eth_p_arp }
      let a := { a with pcap_eth_tx := a.pcap_eth_tx.broadcast }
      (a, r)

/-- The guard of `ARP::sendpack`:
`blen > max_packet_size || blen + sizeof(arphdr) > max_packet_size`, the sum taken in
`size_t`. -/
def ARP.sendpack_too_large (host : Host) (n : Numbers) (blen : Nat) : Bool :=
  decide (blen > n.max_packet_size) ||
    decide (host.size_add blen sizeof_arphdr > n.max_packet_size)

/-- The transmit buffer `tbuf` of an accepted `ARP::sendpack`: header image, payload, zero
fill up to `max_packet_size`. -/
def sendpack_tbuf (host : Host) (n : Numbers) (h : arphdr) (buf : List Byte) (blen : Nat) :
    List Byte :=
  h.bytes host ++ buf.take blen ++
    List.replicate (n.max_packet_size - (sizeof_arphdr + blen)) 0

/-- The method `ARP::sendpack(const void *buf, size_t blen)`. `buf` is the memory readable at
the pointer. The result is `none` when a copy leaves its buffers. -/
def ARP.sendpack {L : Type} (ops : Layer2 L) (host : Host) (n : Numbers) (a : ARP L)
    (buf : List Byte) (blen : Nat) : Option (ARP L × Int) :=
  if ARP.sendpack_too_large host n blen then
    some (a, die "ARP::sendpack: Packet payload too large." errorFuncs.STDERR (-1))
  else do
    let tbuf : List Byte := List.replicate n.max_packet_size 0
    let tbuf ← memcpy tbuf 0 (a.arphdr.bytes host) sizeof_arphdr
    let tbuf ← memcpy tbuf sizeof_arphdr buf blen
    let (l2, r) := ops.sendpack a.layer2 tbuf (host.size_add blen sizeof_arphdr)
    some ({ a with layer2 := l2 }, r)

/-- The method `ARP::sendpack(const std::string &payload)`. -/
def ARP.sendpack_string {L : Type} (ops : Layer2 L) (host : Host) (n : Numbers) (a : ARP L)
    (payload : List Byte) : Option (ARP L × Int) :=
  ARP.sendpack ops host n a payload payload.length

/-- The method `ARP::sniffpack(void *s, size_t len, int &off)`: yields the object, the buffer,
the cursor and the returned value. The result is `none` when the header copy leaves the
buffer. -/
def ARP.sniffpack {L : Type} (ops : Layer2 L) (host : Host) (a : ARP L)
    (s : List Byte) (len : Nat) (off : Int) : Option (ARP L × List Byte × Int × Int) :=
  let off : Int := 0
  let (l2, s, off, r) := ops.sniffpack a.layer2 s len off
  let a := { a with layer2 := l2 }
  if r = 0 ∧ ops.timeout a.layer2 = true then some (a, s, off, 0)
  else if r < 0 then some (a, s, off, -1)
  else if r < int_add off (sizeof_arphdr : Int) then
    some (a, s, off, die "ARP::sniffpack:: short packet" errorFuncs.RETURN (-1))
  else do
    let m ← memread s off sizeof_arphdr
    let h ← arphdr.ofBytes host m
    -- dont increase offset: the header is copied and still returned as payload
    some ({ a with arphdr := h }, s, off, r)

/-- The method `ARP::sniffpack(void *s, size_t len)`: yields the object, the buffer and the
returned value. -/
def ARP.sniffpack_buf {L : Type} (ops : Layer2 L) (host : Host) (a : ARP L)
    (s : List Byte) (len : Nat) : Option (ARP L × List Byte × Int) := do
  let off : Int := 0
  let (a, s, off, r) ← ARP.sniffpack ops host a s len off
  if r ≤ 0 then some (a, s, r)
  else if r ≤ off then some (a, s, 0)
  else if off > 0 then
    -- memmove(s, s + off, r - off)
    let m ← memread s off (r - off).toNat
    let s ← memcpy s 0 m (r - off).toNat
    some (a, s, r - off)
  else some (a, s, r - off)

/-- The method `ARP::sniffpack(std::string &s)`: yields the object and the string. `stack` is
what the uninitialised local `char buf[max_packet_size]` happens to hold. -/
def ARP.sniffpack_string {L : Type} (ops : Layer2 L) (host : Host) (n : Numbers) (a : ARP L)
    (stack : List Byte) (s : List Byte) : Option (ARP L × List Byte) := do
  let off : Int := 0
  let s : List Byte := []
  let buf := stack
  let (a, buf, off, r) ← ARP.sniffpack ops host a buf n.max_packet_size off
  if r > off then
    let m ← memread buf off (r - off).toNat
    some (a, m)
  else some (a, s)

/-! ## A concrete engine -/

/-- Modelled from the spec: a Layer2 engine over an in-memory channel, after §3, §4.1, §4.2 and
§4.3 (`Layer2.cc` and the capability classes are not among the sources). The capture side has
an open flag, the active filter expression and the "last operation timed out" flag; the
transmit side frames what it is given with a link-layer header and puts it on the wire, from
where the capture side takes it. `rejects_filter` stands for a facility that cannot compile
the filter. -/
structure Loopback where
  opened : Bool
  rejects_filter : Bool
  filter : String
  timedout : Bool
  linkhdr : List Byte
  wire : List (List Byte)
  deriving DecidableEq, Repr

/-- Modelled from the spec: §4.3 `sendpack` delegates to the Transmit capability, which returns
the bytes sent. -/
def Loopback.sendpack (l : Loopback) (buf : List Byte) (len : Nat) : Loopback × Int :=
  ({ l with wire := l.wire ++ [l.linkhdr ++ buf.take len] }, (len : Int))

/-- Modelled from the spec: §4.3 `sniffpack` delegates to the Capture capability: a failure on
a device that is not open, 0 with the timeout flag when nothing arrives, otherwise the frame
is written at the start of the buffer, the cursor is put behind the link-layer header and the
number of bytes read is returned. -/
def Loopback.sniffpack (l : Loopback) (s : List Byte) (len : Nat) (off : Int) :
    Loopback × List Byte × Int × Int :=
  if l.opened then
    match l.wire with
    | [] => ({ l with timedout := true }, s, off, 0)
    | f :: fs =>
      let got := f.take (min len s.length)
      ({ l with timedout := false, wire := fs }, got ++ s.drop got.length,
        (l.linkhdr.length : Int), (got.length : Int))
  else (l, s, off, -1)

/-- Modelled from the spec: §4.1 `init` opens the named device or fails. -/
def Loopback.init_device (l : Loopback) (dev : String) (promisc : Int) (snaplen : Nat) :
    Loopback × Int :=
  if dev.length = 0 then (l, -1) else ({ l with opened := true }, 0)

/-- Modelled from the spec: §4.1 `setFilter` installs the expression or fails. -/
def Loopback.setfilter (l : Loopback) (f : String) : Loopback × Int :=
  if l.opened && !l.rejects_filter then ({ l with filter := f }, 0) else (l, -1)

/-- The in-memory engine as an implementation of the `Layer2` interface. -/
def Loopback.ops : Layer2 Loopback where
  sendpack := Loopback.sendpack
  sniffpack := Loopback.sniffpack
  init_device := Loopback.init_device
  setfilter := Loopback.setfilter
  timeout := fun l => l.timedout

/-- A little-endian host with a 64-bit `size_t`. -/
def host_le64 : Host := { little_endian := true, size_bits := 64 }

/-- A big-endian host with a 32-bit `size_t`. -/
def host_be32 : Host := { little_endian := false, size_bits := 32 }

/-- The RFC 826 and Ethernet values of the constants, with a size ceiling of 66000. -/
def numbers_rfc : Numbers :=
  { arpop_request := 1, arphrd_ether := 1, eth_p_ip := 0x0800, eth_p_arp := 0x0806,
    max_packet_size := 66000 }

/-- The constants with a small size ceiling of 16 octets, for evaluation. -/
def numbers_small : Numbers := { numbers_rfc with max_packet_size := 16 }

/-- A closed channel without link-layer header. -/
def loop_closed : Loopback :=
  { opened := false, rejects_filter := false, filter := "", timedout := false,
    linkhdr := [], wire := [] }

/-- An open channel with a two-octet link-layer header. -/
def loop_open : Loopback :=
  { loop_closed with opened := true, linkhdr := [0xAA, 0xBB] }

/-- A transmitter before any configuration. -/
def tx_fresh : TX_pcap_eth := { l2src := [], l2dst := [], frame_type := 0, bcast := false }

/-- A default-constructed object over the closed channel, on the little-endian host. -/
def arp_closed : ARP Loopback := ARP.ctor host_le64 numbers_rfc loop_closed tx_fresh

/-- A channel whose facility cannot compile filters. -/
def loop_nofilter : Loopback := { loop_closed with rejects_filter := true }

/-- A default-constructed object over the open channel, on the little-endian host. -/
def arp_open : ARP Loopback := ARP.ctor host_le64 numbers_rfc loop_open tx_fresh

/-- A default-constructed object whose channel holds one frame: the link-layer header, an
ARP header with operation 2 and two further octets. -/
def arp_frame : ARP Loopback :=
  { arp_open with
    layer2 := { loop_open with wire := [[0xAA, 0xBB, 0, 1, 8, 0, 6, 4, 0, 2, 9, 9]] } }

/-- A default-constructed object whose channel holds one frame that ends inside the ARP
header. -/
def arp_runt : ARP Loopback :=
  { arp_open with layer2 := { loop_open with wire := [[0xAA, 0xBB, 0, 1, 8]] } }

/-- The object `arp_open` after it has sent the payload 1, 2, 3: one frame on the wire. -/
def arp_sent : ARP Loopback :=
  { arp_open with
    layer2 := { loop_open with wire := [[0xAA, 0xBB, 0, 1, 8, 0, 6, 4, 0, 1, 1, 2, 3]] } }

/-- A capture buffer of sixteen zero octets. -/
def buf16 : List Byte := List.replicate 16 0

/-! ## Lemmas on the machine data -/

theorem bswap16_bswap16 (x : U16) : bswap16 (bswap16 x) = x := by
  apply Fin.ext
  have hx := x.isLt
  simp only [bswap16]
  omega

theorem ntohs_htons (host : Host) (v : Nat) (hv : v < 65536) : (ntohs host (htons host v)).val = v := by
  unfold ntohs htons
  cases host.little_endian
  · simp
    omega
  · simp only [if_true, bswap16_bswap16]
    omega

theorem store16_length (host : Host) (x : U16) : (store16 host x).length = 2 := by
  unfold store16
  cases host.little_endian <;> rfl

theorem load16_store16 (host : Host) (x : U16) (b0 b1 : Byte)
    (h : store16 host x = [b0, b1]) : load16 host b0 b1 = x := by
  have hx := x.isLt
  unfold store16 at h
  unfold load16
  cases hle : host.little_endian <;> simp [hle] at h ⊢ <;> obtain ⟨h0, h1⟩ := h <;>
    subst h0 <;> subst h1 <;> apply Fin.ext <;> simp <;> omega

theorem store16_load16 (host : Host) (b0 b1 : Byte) :
    store16 host (load16 host b0 b1) = [b0, b1] := by
  have h0 := b0.isLt
  have h1 := b1.isLt
  unfold store16 load16
  cases hle : host.little_endian <;> simp <;> constructor <;> apply Fin.ext <;> simp <;> omega

theorem arphdr_bytes_length (host : Host) (h : arphdr) :
    (h.bytes host).length = sizeof_arphdr := by
  simp [arphdr.bytes, store16_length, sizeof_arphdr]

theorem arphdr_bytes_ofBytes (host : Host) (m : List Byte) (h : arphdr)
    (hm : arphdr.ofBytes host m = some h) : h.bytes host = m := by
  match m, hm with
  | [b0, b1, b2, b3, b4, b5, b6, b7], hm =>
    simp only [arphdr.ofBytes, Option.some.injEq] at hm
    subst hm
    simp [arphdr.bytes, store16_load16]

theorem arphdr_ofBytes_isSome (host : Host) (m : List Byte) (hm : m.length = sizeof_arphdr) :
    ∃ h, arphdr.ofBytes host m = some h := by
  match m, hm with
  | [b0, b1, b2, b3, b4, b5, b6, b7], _ => exact ⟨_, rfl⟩

theorem store16_pair (host : Host) (x : U16) : ∃ b0 b1, store16 host x = [b0, b1] := by
  unfold store16
  cases host.little_endian <;> exact ⟨_, _, rfl⟩

theorem arphdr_ofBytes_bytes (host : Host) (h : arphdr) :
    arphdr.ofBytes host (h.bytes host) = some h := by
  obtain ⟨p0, p1, e1⟩ := store16_pair host h.ar_hrd
  obtain ⟨q0, q1, e2⟩ := store16_pair host h.ar_pro
  obtain ⟨r0, r1, e3⟩ := store16_pair host h.ar_op
  simp only [arphdr.bytes, e1, e2, e3, List.cons_append, List.nil_append, arphdr.ofBytes,
    load16_store16 host _ _ _ e1, load16_store16 host _ _ _ e2, load16_store16 host _ _ _ e3]

/-- The guard of `ARP::sendpack` fires exactly when the mathematical sum exceeds the ceiling,
provided the ceiling leaves room for one header below `2 ^ size_bits`. -/
theorem sendpack_too_large_iff (host : Host) (n : Numbers) (blen : Nat)
    (hblen : blen < 2 ^ host.size_bits)
    (hmax : n.max_packet_size + sizeof_arphdr < 2 ^ host.size_bits) :
    ARP.sendpack_too_large host n blen = true ↔ n.max_packet_size < blen + sizeof_arphdr := by
  unfold ARP.sendpack_too_large Host.size_add
  simp only [Bool.or_eq_true, decide_eq_true_eq, gt_iff_lt]
  by_cases hle : blen ≤ n.max_packet_size
  · have hlt : blen + sizeof_arphdr < 2 ^ host.size_bits := by omega
    rw [Nat.mod_eq_of_lt hlt]
    omega
  · constructor
    · intro _
      omega
    · intro _
      left
      omega

theorem memcpy_eq_some (dst : List Byte) (pos : Nat) (src : List Byte) (k : Nat)
    (hd : pos + k ≤ dst.length) (hs : k ≤ src.length) :
    memcpy dst pos src k = some (dst.take pos ++ src.take k ++ dst.drop (pos + k)) := by
  unfold memcpy
  rw [if_pos ⟨hd, hs⟩]

theorem memcpy_isSome_iff (dst : List Byte) (pos : Nat) (src : List Byte) (k : Nat) :
    (memcpy dst pos src k).isSome = true ↔ pos + k ≤ dst.length ∧ k ≤ src.length := by
  unfold memcpy
  split <;> simp_all

theorem memread_eq_some (s : List Byte) (off : Int) (k : Nat)
    (h0 : 0 ≤ off) (h1 : off + k ≤ s.length) :
    memread s off k = some ((s.drop off.toNat).take k) := by
  unfold memread
  rw [if_pos]
  exact ⟨h0, by omega⟩

theorem sendpack_tbuf_length (host : Host) (n : Numbers) (h : arphdr) (buf : List Byte)
    (blen : Nat) (hfit : blen + sizeof_arphdr ≤ n.max_packet_size) (hbuf : blen ≤ buf.length) :
    (sendpack_tbuf host n h buf blen).length = n.max_packet_size := by
  simp [sendpack_tbuf, arphdr_bytes_length, List.length_take]
  omega

theorem sendpack_tbuf_take (host : Host) (n : Numbers) (h : arphdr) (buf : List Byte)
    (blen : Nat) (hbuf : blen ≤ buf.length) :
    (sendpack_tbuf host n h buf blen).take (sizeof_arphdr + blen) =
      h.bytes host ++ buf.take blen := by
  have hl : (h.bytes host ++ buf.take blen).length = sizeof_arphdr + blen := by
    simp [arphdr_bytes_length, List.length_take]
    omega
  unfold sendpack_tbuf
  rw [← hl, List.take_left]

/-- The accepting path of `ARP::sendpack`: both copies stay inside `tbuf`, and the engine is
called once with `tbuf` and the length `blen + sizeof(arphdr)`. -/
theorem sendpack_accept {L : Type} (ops : Layer2 L) (host : Host) (n : Numbers) (a : ARP L)
    (buf : List Byte) (blen : Nat)
    (hmax : n.max_packet_size < 2 ^ host.size_bits)
    (hfit : blen + sizeof_arphdr ≤ n.max_packet_size) (hbuf : blen ≤ buf.length) :
    ARP.sendpack ops host n a buf blen =
      some ({ a with layer2 := (ops.sendpack a.layer2 (sendpack_tbuf host n a.arphdr buf blen)
                (blen + sizeof_arphdr)).1 },
            (ops.sendpack a.layer2 (sendpack_tbuf host n a.arphdr buf blen)
                (blen + sizeof_arphdr)).2) := by
  have hsum : host.size_add blen sizeof_arphdr = blen + sizeof_arphdr := by
    unfold Host.size_add
    exact Nat.mod_eq_of_lt (by omega)
  have hg : ARP.sendpack_too_large host n blen = false := by
    unfold ARP.sendpack_too_large
    rw [hsum]
    simp
    omega
  have hs8 : sizeof_arphdr = 8 := rfl
  unfold ARP.sendpack
  rw [hg, hsum]
  have h1 : memcpy (List.replicate n.max_packet_size 0) 0 (a.arphdr.bytes host) sizeof_arphdr =
      some (a.arphdr.bytes host ++ List.replicate (n.max_packet_size - sizeof_arphdr) 0) := by
    rw [memcpy_eq_some _ _ _ _ (by simp; omega) (by rw [arphdr_bytes_length])]
    simp [← arphdr_bytes_length host a.arphdr]
  have h2 : memcpy (a.arphdr.bytes host ++ List.replicate (n.max_packet_size - sizeof_arphdr) 0)
      sizeof_arphdr buf blen = some (sendpack_tbuf host n a.arphdr buf blen) := by
    rw [memcpy_eq_some _ _ _ _ (by simp [arphdr_bytes_length]; omega) hbuf]
    unfold sendpack_tbuf
    have e1 : List.take sizeof_arphdr
        (a.arphdr.bytes host ++ List.replicate (n.max_packet_size - sizeof_arphdr) 0) =
        a.arphdr.bytes host := by
      rw [← arphdr_bytes_length host a.arphdr, List.take_left]
    have e2 : List.drop (sizeof_arphdr + blen)
        (a.arphdr.bytes host ++ List.replicate (n.max_packet_size - sizeof_arphdr) 0) =
        List.replicate (n.max_packet_size - (sizeof_arphdr + blen)) 0 := by
      rw [List.drop_append_eq_append_drop, List.drop_of_length_le
        (by rw [arphdr_bytes_length]; omega), List.nil_append, List.drop_replicate,
        arphdr_bytes_length]
      congr 1
      omega
    rw [e1, e2]
  simp only [Bool.false_eq_true, if_false, h1, h2, Option.bind_eq_bind, Option.some_bind]

theorem sendpack_reject {L : Type} (ops : Layer2 L) (host : Host) (n : Numbers) (a : ARP L)
    (buf : List Byte) (blen : Nat) (hg : ARP.sendpack_too_large host n blen = true) :
    ARP.sendpack ops host n a buf blen = some (a, -1) := by
  unfold ARP.sendpack
  rw [hg]
  rfl

/-! ## The `int` sum -/

theorem int_add_eq (a b : Int) (hlo : -2147483648 ≤ a + b) (hhi : a + b ≤ INT_MAX) :
    int_add a b = a + b := by
  unfold INT_MAX at hhi
  unfold int_add
  omega

theorem int_add_le (a b : Int) : int_add a b ≤ a + b ∨ a + b < -2147483648 := by
  unfold int_add
  omega

theorem int_add_wraps : int_add 2147483644 (sizeof_arphdr : Int) = -2147483644 := by
  decide

/-! ## The four ways out of `ARP::sniffpack` -/

theorem sniffpack_timeout {L : Type} (ops : Layer2 L) (host : Host) (a : ARP L)
    (s : List Byte) (len : Nat) (off0 : Int) (l2 : L) (s1 : List Byte) (off1 r : Int)
    (hres : ops.sniffpack a.layer2 s len 0 = (l2, s1, off1, r))
    (hr : r = 0) (ht : ops.timeout l2 = true) :
    ARP.sniffpack ops host a s len off0 =
      some ({ arphdr := a.arphdr, layer2 := l2, pcap_eth_tx := a.pcap_eth_tx }, s1, off1, 0) := by
  simp [ARP.sniffpack, hres, hr, ht]

theorem sniffpack_failed {L : Type} (ops : Layer2 L) (host : Host) (a : ARP L)
    (s : List Byte) (len : Nat) (off0 : Int) (l2 : L) (s1 : List Byte) (off1 r : Int)
    (hres : ops.sniffpack a.layer2 s len 0 = (l2, s1, off1, r))
    (hr : r < 0) :
    ARP.sniffpack ops host a s len off0 =
      some ({ arphdr := a.arphdr, layer2 := l2, pcap_eth_tx := a.pcap_eth_tx }, s1, off1, -1) := by
  have hne : r ≠ 0 := by omega
  simp [ARP.sniffpack, hres, hr, hne]

theorem sniffpack_short {L : Type} (ops : Layer2 L) (host : Host) (a : ARP L)
    (s : List Byte) (len : Nat) (off0 : Int) (l2 : L) (s1 : List Byte) (off1 r : Int)
    (hres : ops.sniffpack a.layer2 s len 0 = (l2, s1, off1, r))
    (hnt : ¬ (r = 0 ∧ ops.timeout l2 = true))
    (hr : r < int_add off1 (sizeof_arphdr : Int)) :
    ARP.sniffpack ops host a s len off0 =
      some ({ arphdr := a.arphdr, layer2 := l2, pcap_eth_tx := a.pcap_eth_tx }, s1, off1, -1) := by
  simp only [ARP.sniffpack, hres, if_neg hnt, if_pos hr, die]
  split <;> rfl

theorem sniffpack_short_in_range {L : Type} (ops : Layer2 L) (host : Host) (a : ARP L)
    (s : List Byte) (len : Nat) (off0 : Int) (l2 : L) (s1 : List Byte) (off1 r : Int)
    (hres : ops.sniffpack a.layer2 s len 0 = (l2, s1, off1, r))
    (hnt : ¬ (r = 0 ∧ ops.timeout l2 = true))
    (hint : off1 + (sizeof_arphdr : Int) ≤ INT_MAX)
    (hshort : r < off1 + (sizeof_arphdr : Int)) :
    ARP.sniffpack ops host a s len off0 =
      some ({ arphdr := a.arphdr, layer2 := l2, pcap_eth_tx := a.pcap_eth_tx }, s1, off1, -1) := by
  by_cases hneg : r < 0
  · exact sniffpack_failed ops host a s len off0 l2 s1 off1 r hres hneg
  · have hsum : int_add off1 (sizeof_arphdr : Int) = off1 + (sizeof_arphdr : Int) :=
      int_add_eq _ _ (by omega) hint
    exact sniffpack_short ops host a s len off0 l2 s1 off1 r hres hnt (by rw [hsum]; exact hshort)

/-- Past `INT_MAX` the sum of the short-packet test wraps to a negative value, the test is
skipped and the header copy starts at the cursor: in a buffer that ends before
`cursor + sizeof(arphdr)` it leaves the buffer, so the call has no defined result. -/
theorem sniffpack_sum_overflow {L : Type} (ops : Layer2 L) (host : Host) (a : ARP L)
    (s : List Byte) (len : Nat) (off0 : Int) (l2 : L) (s1 : List Byte) (off1 r : Int)
    (hres : ops.sniffpack a.layer2 s len 0 = (l2, s1, off1, r))
    (hnt : ¬ (r = 0 ∧ ops.timeout l2 = true)) (hr : 0 ≤ r)
    (hoff : off1 ≤ INT_MAX) (hover : INT_MAX < off1 + (sizeof_arphdr : Int))
    (hbuf : (s1.length : Int) < off1 + (sizeof_arphdr : Int)) :
    ARP.sniffpack ops host a s len off0 = none := by
  have hs8 : sizeof_arphdr = 8 := rfl
  have hr0 : ¬ r < 0 := by omega
  have hr8 : ¬ r < int_add off1 (sizeof_arphdr : Int) := by
    unfold INT_MAX at hoff hover
    unfold int_add
    omega
  have hrd : memread s1 off1 sizeof_arphdr = none := by
    unfold memread
    rw [if_neg]
    intro hc
    omega
  simp only [ARP.sniffpack, hres, if_neg hnt, if_neg hr0, if_neg hr8, hrd,
    Option.bind_eq_bind, Option.none_bind]

theorem sniffpack_parsed {L : Type} (ops : Layer2 L) (host : Host) (a : ARP L)
    (s : List Byte) (len : Nat) (off0 : Int) (l2 : L) (s1 : List Byte) (off1 r : Int)
    (hres : ops.sniffpack a.layer2 s len 0 = (l2, s1, off1, r))
    (h0 : 0 ≤ off1) (h8 : off1 + (sizeof_arphdr : Int) ≤ r) (hlen : r ≤ (s1.length : Int)) :
    ∃ h : arphdr,
      arphdr.ofBytes host ((s1.drop off1.toNat).take sizeof_arphdr) = some h ∧
      ARP.sniffpack ops host a s len off0 =
        some ({ arphdr := h, layer2 := l2, pcap_eth_tx := a.pcap_eth_tx }, s1, off1, r) := by
  have hs8 : sizeof_arphdr = 8 := rfl
  have hl : ((s1.drop off1.toNat).take sizeof_arphdr).length = sizeof_arphdr := by
    rw [List.length_take, List.length_drop]
    omega
  obtain ⟨h, hh⟩ := arphdr_ofBytes_isSome host _ hl
  refine ⟨h, hh, ?_⟩
  have hnt : ¬ (r = 0 ∧ ops.timeout l2 = true) := by
    intro hc
    omega
  have hr0 : ¬ r < 0 := by omega
  have hr8 : ¬ r < int_add off1 (sizeof_arphdr : Int) := by
    have hle := int_add_le off1 (sizeof_arphdr : Int)
    omega
  simp only [ARP.sniffpack, hres, if_neg hnt, if_neg hr0, if_neg hr8,
    memread_eq_some s1 off1 sizeof_arphdr h0 (by omega), hh,
    Option.bind_eq_bind, Option.some_bind]

theorem sniffpack_string_parsed {L : Type} (ops : Layer2 L) (host : Host) (n : Numbers)
    (a : ARP L) (stack s0 : List Byte) (l2 : L) (s1 : List Byte) (off1 r : Int)
    (hres : ops.sniffpack a.layer2 stack n.max_packet_size 0 = (l2, s1, off1, r))
    (h0 : 0 ≤ off1) (h8 : off1 + (sizeof_arphdr : Int) ≤ r) (hlen : r ≤ (s1.length : Int)) :
    ∃ h : arphdr,
      arphdr.ofBytes host ((s1.drop off1.toNat).take sizeof_arphdr) = some h ∧
      ARP.sniffpack_string ops host n a stack s0 =
        some ({ arphdr := h, layer2 := l2, pcap_eth_tx := a.pcap_eth_tx },
              (s1.drop off1.toNat).take (r - off1).toNat) := by
  have hs8 : sizeof_arphdr = 8 := rfl
  obtain ⟨h, hh, hsn⟩ :=
    sniffpack_parsed ops host a stack n.max_packet_size 0 l2 s1 off1 r hres h0 h8 hlen
  refine ⟨h, hh, ?_⟩
  have hgt : r > off1 := by omega
  simp only [ARP.sniffpack_string, hsn, Option.bind_eq_bind, Option.some_bind, if_pos hgt,
    memread_eq_some s1 off1 (r - off1).toNat h0 (by omega)]

theorem store16_flag (h1 h2 : Host) (x : U16) (hf : h1.little_endian = h2.little_endian) :
    store16 h1 x = store16 h2 x := by
  unfold store16
  rw [hf]

theorem arphdr_bytes_flag (h1 h2 : Host) (x : arphdr)
    (hf : h1.little_endian = h2.little_endian) : x.bytes h1 = x.bytes h2 := by
  unfold arphdr.bytes
  rw [store16_flag h1 h2 _ hf, store16_flag h1 h2 _ hf, store16_flag h1 h2 _ hf]

theorem ntohs_of_store16_eq (h1 h2 : Host) (x y : U16)
    (h : store16 h1 x = store16 h2 y) : ntohs h1 x = ntohs h2 y := by
  have hx := x.isLt
  have hy := y.isLt
  unfold store16 at h
  unfold ntohs bswap16
  cases e1 : h1.little_endian <;> cases e2 : h2.little_endian <;>
    simp [e1, e2, Fin.ext_iff] at h ⊢ <;> omega

theorem arphdr_op_of_bytes_eq (h1 h2 : Host) (x y : arphdr)
    (h : x.bytes h1 = y.bytes h2) : store16 h1 x.ar_op = store16 h2 y.ar_op := by
  obtain ⟨a0, a1, ea⟩ := store16_pair h1 x.ar_hrd
  obtain ⟨b0, b1, eb⟩ := store16_pair h1 x.ar_pro
  obtain ⟨c0, c1, ec⟩ := store16_pair h1 x.ar_op
  obtain ⟨d0, d1, ed⟩ := store16_pair h2 y.ar_hrd
  obtain ⟨e0, e1, ee⟩ := store16_pair h2 y.ar_pro
  obtain ⟨f0, f1, ef⟩ := store16_pair h2 y.ar_op
  simp only [arphdr.bytes, ea, eb, ec, ed, ee, ef, List.cons_append, List.nil_append,
    List.cons.injEq, and_true] at h
  rw [ec, ef]
  simp [h.2.2.2.2.2.2.1, h.2.2.2.2.2.2.2]

theorem arphdr_bytes_injective (host : Host) (x y : arphdr)
    (h : x.bytes host = y.bytes host) : x = y := by
  have hx := arphdr_ofBytes_bytes host x
  rw [h, arphdr_ofBytes_bytes host y] at hx
  exact (Option.some.inj hx).symm

/-! ## The claims on `sendpack` -/

/-- C1: a payload length `blen` with `blen + sizeof(arphdr) > max_packet_size` makes
`ARP::sendpack(buf, blen)` return -1 and leaves the whole object as it was: the header is
unchanged and the state of the Layer2 base is the one before the call, for every
implementation of `Layer2::sendpack`, so the engine was given nothing to transmit. -/
theorem sendpack_oversize_fails {L : Type} (ops : Layer2 L) (host : Host) (n : Numbers)
    (a : ARP L) (buf : List Byte) (blen : Nat)
    (hblen : blen < 2 ^ host.size_bits)
    (hmax : n.max_packet_size + sizeof_arphdr < 2 ^ host.size_bits)
    (hbig : blen + sizeof_arphdr > n.max_packet_size) :
    ARP.sendpack ops host n a buf blen = some (a, -1) ∧
      ∀ ops2 : Layer2 L, ARP.sendpack ops2 host n a buf blen = ARP.sendpack ops host n a buf blen := by
  have hg := (sendpack_too_large_iff host n blen hblen hmax).2 hbig
  refine ⟨sendpack_reject ops host n a buf blen hg, fun ops2 => ?_⟩
  rw [sendpack_reject ops host n a buf blen hg, sendpack_reject ops2 host n a buf blen hg]

/-- Witness of C1: nine payload octets under a ceiling of sixteen; on the in-memory engine the
wire stays empty. -/
theorem sendpack_oversize_fails_witness :
    (ARP.sendpack Loopback.ops host_le64 numbers_small arp_open [1, 2, 3, 4, 5, 6, 7, 8, 9] 9
        = some (arp_open, -1) ∧
      ∀ ops2 : Layer2 Loopback,
        ARP.sendpack ops2 host_le64 numbers_small arp_open [1, 2, 3, 4, 5, 6, 7, 8, 9] 9 =
          ARP.sendpack Loopback.ops host_le64 numbers_small arp_open
            [1, 2, 3, 4, 5, 6, 7, 8, 9] 9) ∧
      arp_open.layer2.wire = [] :=
  ⟨sendpack_oversize_fails Loopback.ops host_le64 numbers_small arp_open
      [1, 2, 3, 4, 5, 6, 7, 8, 9] 9 (by decide) (by decide) (by decide), rfl⟩

/-- C2: when `len(P) + sizeof(arphdr) <= max_packet_size`, `ARP::sendpack` calls
`Layer2::sendpack` once, with a buffer whose first `sizeof(arphdr) + len(P)` octets are the
header image followed by the payload and with exactly that length, and returns what that call
returns; the header is left as it was. Stated for the pointer overload (payload = the first
`blen` octets at `buf`) and for the string overload. -/
theorem sendpack_hands_header_and_payload {L : Type} (ops : Layer2 L) (host : Host)
    (n : Numbers) (a : ARP L) (buf : List Byte) (blen : Nat) (P : List Byte)
    (hmax : n.max_packet_size < 2 ^ host.size_bits)
    (hfit : blen + sizeof_arphdr ≤ n.max_packet_size) (hbuf : blen ≤ buf.length)
    (hP : P.length + sizeof_arphdr ≤ n.max_packet_size) :
    (ARP.sendpack ops host n a buf blen =
        some ({ arphdr := a.arphdr, pcap_eth_tx := a.pcap_eth_tx,
                layer2 := (ops.sendpack a.layer2 (sendpack_tbuf host n a.arphdr buf blen)
                  (blen + sizeof_arphdr)).1 },
              (ops.sendpack a.layer2 (sendpack_tbuf host n a.arphdr buf blen)
                  (blen + sizeof_arphdr)).2) ∧
      (sendpack_tbuf host n a.arphdr buf blen).take (blen + sizeof_arphdr) =
        a.arphdr.bytes host ++ buf.take blen ∧
      (a.arphdr.bytes host ++ buf.take blen).length = sizeof_arphdr + blen) ∧
    (ARP.sendpack_string ops host n a P =
        some ({ arphdr := a.arphdr, pcap_eth_tx := a.pcap_eth_tx,
                layer2 := (ops.sendpack a.layer2 (sendpack_tbuf host n a.arphdr P P.length)
                  (P.length + sizeof_arphdr)).1 },
              (ops.sendpack a.layer2 (sendpack_tbuf host n a.arphdr P P.length)
                  (P.length + sizeof_arphdr)).2) ∧
      (sendpack_tbuf host n a.arphdr P P.length).take (P.length + sizeof_arphdr) =
        a.arphdr.bytes host ++ P ∧
      (a.arphdr.bytes host ++ P).length = sizeof_arphdr + P.length) := by
  refine ⟨⟨sendpack_accept ops host n a buf blen hmax hfit hbuf, ?_, ?_⟩,
    ⟨sendpack_accept ops host n a P P.length hmax hP (Nat.le_refl _), ?_, ?_⟩⟩
  · rw [Nat.add_comm, sendpack_tbuf_take host n a.arphdr buf blen hbuf]
  · rw [List.length_append, arphdr_bytes_length, List.length_take, Nat.min_eq_left hbuf]
  · rw [Nat.add_comm, sendpack_tbuf_take host n a.arphdr P P.length (Nat.le_refl _),
      List.take_length]
  · rw [List.length_append, arphdr_bytes_length]

/-- Witness of C2: three payload octets under a ceiling of sixteen; the in-memory engine puts
one frame on the wire, its link-layer header followed by the ARP header and the payload, and
`sendpack` returns the engine's result 11. -/
theorem sendpack_hands_header_and_payload_witness :
    ((sendpack_tbuf host_le64 numbers_small arp_open.arphdr [1, 2, 3] 3).take
        (3 + sizeof_arphdr) = arp_open.arphdr.bytes host_le64 ++ [1, 2, 3].take 3) ∧
      (ARP.sendpack_string Loopback.ops host_le64 numbers_small arp_open [1, 2, 3]).map
        (fun x => (x.1.layer2.wire, x.2)) =
        some ([[0xAA, 0xBB, 0, 1, 8, 0, 6, 4, 0, 1, 1, 2, 3]], 11) :=
  ⟨(sendpack_hands_header_and_payload Loopback.ops host_le64 numbers_small arp_open
      [1, 2, 3] 3 [1, 2, 3] (by decide) (by decide) (by decide) (by decide)).1.2.1, by decide⟩

/-- C10: for every `blen` that fits `size_t`, wrapping sums included, the guard of
`ARP::sendpack` lets the call pass exactly when the mathematical sum
`blen + sizeof(arphdr)` is at most `max_packet_size`. On the passing path the header copy
ends at `sizeof(arphdr)` and the payload copy at `sizeof(arphdr) + blen`, both at most
`max_packet_size`, the length of `tbuf`, and every copy is defined; on the failing path the
call returns before `tbuf` exists, whatever lies at `buf`. The ceiling is assumed to leave
room for one header below `2 ^ size_bits`. -/
theorem sendpack_guard_exact {L : Type} (ops : Layer2 L) (host : Host) (n : Numbers)
    (a : ARP L) (buf : List Byte) (blen : Nat)
    (hblen : blen < 2 ^ host.size_bits)
    (hmax : n.max_packet_size + sizeof_arphdr < 2 ^ host.size_bits) :
    (ARP.sendpack_too_large host n blen = false ↔ blen + sizeof_arphdr ≤ n.max_packet_size) ∧
    (ARP.sendpack_too_large host n blen = false →
      0 + sizeof_arphdr ≤ (List.replicate n.max_packet_size (0 : Byte)).length ∧
      sizeof_arphdr + blen ≤ (List.replicate n.max_packet_size (0 : Byte)).length ∧
      (blen ≤ buf.length →
        (sendpack_tbuf host n a.arphdr buf blen).length = n.max_packet_size ∧
        (ARP.sendpack ops host n a buf blen).isSome = true)) ∧
    (ARP.sendpack_too_large host n blen = true →
      ARP.sendpack ops host n a buf blen = some (a, -1)) := by
  have hiff := sendpack_too_large_iff host n blen hblen hmax
  have hacc : ARP.sendpack_too_large host n blen = false ↔
      blen + sizeof_arphdr ≤ n.max_packet_size := by
    rw [← Bool.not_eq_true, hiff]
    omega
  refine ⟨hacc, fun hg => ?_, fun hg => sendpack_reject ops host n a buf blen hg⟩
  have hfit := hacc.1 hg
  refine ⟨by rw [List.length_replicate]; omega, by rw [List.length_replicate]; omega,
    fun hbuf => ⟨sendpack_tbuf_length host n a.arphdr buf blen hfit hbuf, ?_⟩⟩
  rw [sendpack_accept ops host n a buf blen (by omega) hfit hbuf]
  rfl

/-- Witness of C10: on a host with a 32-bit `size_t` and the ceiling 66000, the length
`2 ^ 32 - 4`, whose sum with the header size wraps to 4, is rejected. -/
theorem sendpack_guard_exact_witness :
    ARP.sendpack_too_large host_be32 numbers_rfc 4294967292 = true ∧
      host_be32.size_add 4294967292 sizeof_arphdr = 4 ∧
      ARP.sendpack Loopback.ops host_be32 numbers_rfc arp_open [] 4294967292 =
        some (arp_open, -1) :=
  ⟨by decide, by decide,
    (sendpack_guard_exact Loopback.ops host_be32 numbers_rfc arp_open [] 4294967292
      (by decide) (by decide)).2.2 (by decide)⟩

/-! ## The claims on construction and device set-up -/

/-- C8: a default-constructed `ARP` object has `get_op()` equal to `arpop_request` (`ntohs`
undoes the `htons` of the constructor), hardware type `arphrd_ether` and protocol type
`eth_p_ip` when read in host order, hardware address length 6 and protocol address length 4.
The three constants are 16-bit values. -/
theorem ctor_defaults {L : Type} (host : Host) (n : Numbers) (l2 : L) (tx : TX_pcap_eth)
    (hop : n.arpop_request < 65536) (hhrd : n.arphrd_ether < 65536)
    (hpro : n.eth_p_ip < 65536) :
    (ARP.get_op host (ARP.ctor host n l2 tx)).val = n.arpop_request ∧
      (ntohs host (ARP.ctor host n l2 tx).arphdr.ar_hrd).val = n.arphrd_ether ∧
      (ntohs host (ARP.ctor host n l2 tx).arphdr.ar_pro).val = n.eth_p_ip ∧
      (ARP.ctor host n l2 tx).arphdr.ar_hln = 6 ∧
      (ARP.ctor host n l2 tx).arphdr.ar_pln = 4 :=
  ⟨ntohs_htons host _ hop, ntohs_htons host _ hhrd, ntohs_htons host _ hpro, rfl, rfl⟩

/-- Witness of C8: the RFC 826 constants on a little-endian host; the header image is the
big-endian one. -/
theorem ctor_defaults_witness :
    ((ARP.get_op host_le64 arp_open).val = 1 ∧
      (ntohs host_le64 arp_open.arphdr.ar_hrd).val = 1 ∧
      (ntohs host_le64 arp_open.arphdr.ar_pro).val = 0x0800 ∧
      arp_open.arphdr.ar_hln = 6 ∧ arp_open.arphdr.ar_pln = 4) ∧
      arp_open.arphdr.bytes host_le64 = [0, 1, 8, 0, 6, 4, 0, 1] :=
  ⟨ctor_defaults host_le64 numbers_rfc loop_open tx_fresh (by decide) (by decide) (by decide),
    by decide⟩

/-- C9: `ARP::init_device` calls `Layer2::init_device`, then `Layer2::setfilter("arp")`. When
neither fails, the transmitter's frame type is `eth_p_arp`, its broadcast flag is set, and
the result is that of `setfilter`; when the first or the second fails the result is -1 and
the transmitter is the one before the call. The header is never touched. -/
theorem init_device_sets_filter_and_transmitter {L : Type} (ops : Layer2 L) (n : Numbers)
    (a : ARP L) (dev : String) (promisc : Int) (snaplen : Nat) (l1 l2 : L) (r1 r2 : Int)
    (hinit : ops.init_device a.layer2 dev promisc snaplen = (l1, r1))
    (hfilter : ops.setfilter l1 "arp" = (l2, r2)) :
    (0 ≤ r1 → 0 ≤ r2 →
      ARP.init_device ops n a dev promisc snaplen =
        ({ arphdr := a.arphdr, layer2 := l2,
           pcap_eth_tx := { l2src := a.pcap_eth_tx.l2src, l2dst := a.pcap_eth_tx.l2dst,
                            frame_type := n.eth_p_arp, bcast := true } }, r2)) ∧
    (r1 < 0 →
      ARP.init_device ops n a dev promisc snaplen =
        ({ arphdr := a.arphdr, layer2 := l1, pcap_eth_tx := a.pcap_eth_tx }, -1)) ∧
    (0 ≤ r1 → r2 < 0 →
      ARP.init_device ops n a dev promisc snaplen =
        ({ arphdr := a.arphdr, layer2 := l2, pcap_eth_tx := a.pcap_eth_tx }, -1)) := by
  refine ⟨fun h1 h2 => ?_, fun h1 => ?_, fun h1 h2 => ?_⟩
  · simp [ARP.init_device, hinit, hfilter, not_lt.2 h1, not_lt.2 h2,
      TX_pcap_eth.set_type, TX_pcap_eth.broadcast]
  · simp [ARP.init_device, hinit, h1]
  · simp [ARP.init_device, hinit, hfilter, not_lt.2 h1, h2]

/-- Witness of C9 on the in-memory engine: opening "eth0" succeeds and leaves the filter "arp",
the frame type 0x0806 and the broadcast flag; an empty device name fails in
`Layer2::init_device`, a facility that cannot compile filters fails in `setfilter`, and both
leave the transmitter alone. -/
theorem init_device_sets_filter_and_transmitter_witness :
    ARP.init_device Loopback.ops numbers_rfc arp_closed "eth0" 1 1500 =
        ({ arphdr := arp_closed.arphdr,
           layer2 := { loop_closed with opened := true, filter := "arp" },
           pcap_eth_tx := { l2src := [], l2dst := [], frame_type := 0x0806, bcast := true } },
          0) ∧
      ARP.init_device Loopback.ops numbers_rfc arp_closed "" 1 1500 =
        ({ arphdr := arp_closed.arphdr, layer2 := loop_closed, pcap_eth_tx := tx_fresh }, -1) ∧
      ARP.init_device Loopback.ops numbers_rfc
          { arp_closed with layer2 := loop_nofilter } "eth0" 1 1500 =
        ({ arphdr := arp_closed.arphdr, layer2 := { loop_nofilter with opened := true },
           pcap_eth_tx := tx_fresh }, -1) :=
  ⟨(init_device_sets_filter_and_transmitter Loopback.ops numbers_rfc arp_closed "eth0" 1 1500
      { loop_closed with opened := true } { loop_closed with opened := true, filter := "arp" }
      0 0 rfl rfl).1 (by decide) (by decide),
   (init_device_sets_filter_and_transmitter Loopback.ops numbers_rfc arp_closed "" 1 1500
      loop_closed loop_closed (-1) (-1) rfl rfl).2.1 (by decide),
   (init_device_sets_filter_and_transmitter Loopback.ops numbers_rfc
      { arp_closed with layer2 := loop_nofilter } "eth0" 1 1500
      { loop_nofilter with opened := true } { loop_nofilter with opened := true }
      0 (-1) rfl rfl).2.2 (by decide) (by decide)⟩

/-! ## The claims on `sniffpack` -/

/-- C3: when the Layer2 read did not time out and delivered fewer than `sizeof(arphdr)` octets
behind the cursor it left, `ARP::sniffpack(buf, len, off)` returns -1 and the header is the
one before the call; the cursor passed in plays no part, it is overwritten with 0 before the
read. The cursor the read leaves is one for which the `int` sum `off + (int)sizeof(arphdr)`
of the test stays within `INT_MAX`; past that the sum overflows. -/
theorem sniffpack_short_frame_fails {L : Type} (ops : Layer2 L) (host : Host) (a : ARP L)
    (s : List Byte) (len : Nat) (off0 : Int) (l2 : L) (s1 : List Byte) (off1 r : Int)
    (hres : ops.sniffpack a.layer2 s len 0 = (l2, s1, off1, r))
    (hnt : ¬ (r = 0 ∧ ops.timeout l2 = true))
    (hint : off1 + (sizeof_arphdr : Int) ≤ INT_MAX)
    (hshort : r < off1 + (sizeof_arphdr : Int)) :
    ARP.sniffpack ops host a s len off0 =
        some ({ arphdr := a.arphdr, layer2 := l2, pcap_eth_tx := a.pcap_eth_tx },
              s1, off1, -1) ∧
      ∀ off : Int, ARP.sniffpack ops host a s len off = ARP.sniffpack ops host a s len off0 := by
  refine ⟨sniffpack_short_in_range ops host a s len off0 l2 s1 off1 r hres hnt hint hshort,
    fun off => ?_⟩
  rw [sniffpack_short_in_range ops host a s len off0 l2 s1 off1 r hres hnt hint hshort,
    sniffpack_short_in_range ops host a s len off l2 s1 off1 r hres hnt hint hshort]

/-- Witness of C3: a frame of five octets, two of them link-layer header, read with the
incoming cursor 7. -/
theorem sniffpack_short_frame_fails_witness :
    (ARP.sniffpack Loopback.ops host_le64 arp_runt buf16 16 7 =
        some ({ arphdr := arp_runt.arphdr, layer2 := loop_open,
                pcap_eth_tx := arp_runt.pcap_eth_tx },
              [0xAA, 0xBB, 0, 1, 8, 0, 0, 0, 0, 0, 0, 0, 0, 0, 0, 0], 2, -1) ∧
      ∀ off : Int, ARP.sniffpack Loopback.ops host_le64 arp_runt buf16 16 off =
        ARP.sniffpack Loopback.ops host_le64 arp_runt buf16 16 7) ∧
      arp_runt.arphdr.bytes host_le64 = [0, 1, 8, 0, 6, 4, 0, 1] :=
  ⟨sniffpack_short_frame_fails Loopback.ops host_le64 arp_runt buf16 16 7 loop_open
      [0xAA, 0xBB, 0, 1, 8, 0, 0, 0, 0, 0, 0, 0, 0, 0, 0, 0] 2 5 rfl (by decide) (by decide)
      (by decide),
    by decide⟩

/-- C4, as the code has it: after a successful `ARP::sniffpack(buf, len, off)` the cursor is
the one the Layer2 read left when started from 0, whatever value came in, and it is not moved
past the ARP header: the range of `returned length - cursor` octets at the cursor, which is
what the callers extract, begins with the image of the header now held by the object. -/
theorem sniffpack_cursor_stays_at_header {L : Type} (ops : Layer2 L) (host : Host) (a : ARP L)
    (s : List Byte) (len : Nat) (l2 : L) (s1 : List Byte) (off1 r : Int)
    (hres : ops.sniffpack a.layer2 s len 0 = (l2, s1, off1, r))
    (h0 : 0 ≤ off1) (h8 : off1 + (sizeof_arphdr : Int) ≤ r) (hlen : r ≤ (s1.length : Int)) :
    ∃ (b : ARP L) (range : List Byte),
      (∀ off0 : Int, ARP.sniffpack ops host a s len off0 = some (b, s1, off1, r)) ∧
      memread s1 off1 (r - off1).toNat = some range ∧
      range.length = (r - off1).toNat ∧
      range.take sizeof_arphdr = b.arphdr.bytes host := by
  have hs8 : sizeof_arphdr = 8 := rfl
  obtain ⟨h, hh, _⟩ := sniffpack_parsed ops host a s len 0 l2 s1 off1 r hres h0 h8 hlen
  refine ⟨{ arphdr := h, layer2 := l2, pcap_eth_tx := a.pcap_eth_tx },
    (s1.drop off1.toNat).take (r - off1).toNat, fun off0 => ?_,
    memread_eq_some s1 off1 _ h0 (by omega), ?_, ?_⟩
  · obtain ⟨h2, hh2, hsn⟩ := sniffpack_parsed ops host a s len off0 l2 s1 off1 r hres h0 h8 hlen
    rw [hh] at hh2
    rw [hsn, Option.some.inj hh2]
  · rw [List.length_take, List.length_drop]
    omega
  · rw [arphdr_bytes_ofBytes host _ h hh, List.take_take]
    congr 1
    omega

/-- Witness of the amended C4: a twelve-octet frame, two of them link-layer header; the cursor
ends at 2 and the range of ten octets starts with the captured header. -/
theorem sniffpack_cursor_stays_at_header_witness :
    ∃ (b : ARP Loopback) (range : List Byte),
      (∀ off0 : Int, ARP.sniffpack Loopback.ops host_le64 arp_frame buf16 16 off0 =
        some (b, [0xAA, 0xBB, 0, 1, 8, 0, 6, 4, 0, 2, 9, 9, 0, 0, 0, 0], 2, 12)) ∧
      memread [0xAA, 0xBB, 0, 1, 8, 0, 6, 4, 0, 2, 9, 9, 0, 0, 0, 0] 2 ((12 : Int) - 2).toNat =
        some range ∧
      range.length = ((12 : Int) - 2).toNat ∧
      range.take sizeof_arphdr = b.arphdr.bytes host_le64 :=
  sniffpack_cursor_stays_at_header Loopback.ops host_le64 arp_frame buf16 16 loop_open
    [0xAA, 0xBB, 0, 1, 8, 0, 6, 4, 0, 2, 9, 9, 0, 0, 0, 0] 2 12 rfl
    (by decide) (by decide) (by decide)

/-- C4 as stated fails: called with the cursor 7, `ARP::sniffpack` succeeds with 12 octets and
leaves the cursor at 2, the value of the Layer2 read, not at 7. -/
theorem sniffpack_cursor_not_incoming :
    (ARP.sniffpack Loopback.ops host_le64 arp_frame buf16 16 7).map
        (fun x => (x.2.2.1, x.2.2.2)) = some (2, 12) ∧
      (2 : Int) ≠ 7 := by
  decide

/-- C5: when the Layer2 read delivers `r` octets into the buffer with
`r >= off + sizeof(arphdr)`, `off` being the cursor it left, `ARP::sniffpack` returns `r`, the
header of the object becomes the `sizeof(arphdr)` octets of the buffer at `off`, and the
buffer and the cursor come back as the read left them. -/
theorem sniffpack_copies_header {L : Type} (ops : Layer2 L) (host : Host) (a : ARP L)
    (s : List Byte) (len : Nat) (off0 : Int) (l2 : L) (s1 : List Byte) (off1 r : Int)
    (hres : ops.sniffpack a.layer2 s len 0 = (l2, s1, off1, r))
    (h0 : 0 ≤ off1) (h8 : off1 + (sizeof_arphdr : Int) ≤ r) (hlen : r ≤ (s1.length : Int)) :
    ∃ h : arphdr,
      ARP.sniffpack ops host a s len off0 =
        some ({ arphdr := h, layer2 := l2, pcap_eth_tx := a.pcap_eth_tx }, s1, off1, r) ∧
      h.bytes host = (s1.drop off1.toNat).take sizeof_arphdr ∧
      arphdr.ofBytes host ((s1.drop off1.toNat).take sizeof_arphdr) = some h := by
  obtain ⟨h, hh, hsn⟩ := sniffpack_parsed ops host a s len off0 l2 s1 off1 r hres h0 h8 hlen
  exact ⟨h, hsn, arphdr_bytes_ofBytes host _ h hh, hh⟩

/-- Witness of C5: the twelve-octet frame on a little-endian host; the operation read back is
2. -/
theorem sniffpack_copies_header_witness :
    (∃ h : arphdr,
      ARP.sniffpack Loopback.ops host_le64 arp_frame buf16 16 0 =
        some ({ arphdr := h, layer2 := loop_open, pcap_eth_tx := arp_frame.pcap_eth_tx },
              [0xAA, 0xBB, 0, 1, 8, 0, 6, 4, 0, 2, 9, 9, 0, 0, 0, 0], 2, 12) ∧
      h.bytes host_le64 =
        (([0xAA, 0xBB, 0, 1, 8, 0, 6, 4, 0, 2, 9, 9, 0, 0, 0, 0] : List Byte).drop
          (2 : Int).toNat).take sizeof_arphdr ∧
      arphdr.ofBytes host_le64
        ((([0xAA, 0xBB, 0, 1, 8, 0, 6, 4, 0, 2, 9, 9, 0, 0, 0, 0] : List Byte).drop
          (2 : Int).toNat).take sizeof_arphdr) = some h) ∧
      (ARP.sniffpack Loopback.ops host_le64 arp_frame buf16 16 0).map
        (fun x => ((ARP.get_op host_le64 x.1).val, x.2.2.2)) = some (2, 12) :=
  ⟨sniffpack_copies_header Loopback.ops host_le64 arp_frame buf16 16 0 loop_open
      [0xAA, 0xBB, 0, 1, 8, 0, 6, 4, 0, 2, 9, 9, 0, 0, 0, 0] 2 12 rfl
      (by decide) (by decide) (by decide), by decide⟩

/-- C6: when the Layer2 read reports 0 octets and `Layer2::timeout()` holds, `ARP::sniffpack`
returns 0; when the read returns a negative value, `ARP::sniffpack` returns -1. In both cases
the header is the one before the call, and `ARP::sniffpack(void *, size_t)` hands the same
value on. -/
theorem sniffpack_timeout_zero_failure_minus_one {L : Type} (ops : Layer2 L) (host : Host)
    (a : ARP L) (s : List Byte) (len : Nat) (off0 : Int) (l2 : L) (s1 : List Byte)
    (off1 r : Int)
    (hres : ops.sniffpack a.layer2 s len 0 = (l2, s1, off1, r)) :
    (r = 0 → ops.timeout l2 = true →
      ARP.sniffpack ops host a s len off0 =
        some ({ arphdr := a.arphdr, layer2 := l2, pcap_eth_tx := a.pcap_eth_tx },
              s1, off1, 0) ∧
      ARP.sniffpack_buf ops host a s len =
        some ({ arphdr := a.arphdr, layer2 := l2, pcap_eth_tx := a.pcap_eth_tx }, s1, 0)) ∧
    (r < 0 →
      ARP.sniffpack ops host a s len off0 =
        some ({ arphdr := a.arphdr, layer2 := l2, pcap_eth_tx := a.pcap_eth_tx },
              s1, off1, -1) ∧
      ARP.sniffpack_buf ops host a s len =
        some ({ arphdr := a.arphdr, layer2 := l2, pcap_eth_tx := a.pcap_eth_tx }, s1, -1)) := by
  refine ⟨fun hr ht => ⟨sniffpack_timeout ops host a s len off0 l2 s1 off1 r hres hr ht, ?_⟩,
    fun hr => ⟨sniffpack_failed ops host a s len off0 l2 s1 off1 r hres hr, ?_⟩⟩
  · simp [ARP.sniffpack_buf, sniffpack_timeout ops host a s len 0 l2 s1 off1 r hres hr ht]
  · simp [ARP.sniffpack_buf, sniffpack_failed ops host a s len 0 l2 s1 off1 r hres hr]

/-- Witness of C6: an open channel with nothing on the wire times out, a closed channel
fails. -/
theorem sniffpack_timeout_zero_failure_minus_one_witness :
    (ARP.sniffpack Loopback.ops host_le64 arp_open buf16 16 3 =
        some ({ arphdr := arp_open.arphdr, layer2 := { loop_open with timedout := true },
                pcap_eth_tx := arp_open.pcap_eth_tx }, buf16, 0, 0) ∧
      ARP.sniffpack_buf Loopback.ops host_le64 arp_open buf16 16 =
        some ({ arphdr := arp_open.arphdr, layer2 := { loop_open with timedout := true },
                pcap_eth_tx := arp_open.pcap_eth_tx }, buf16, 0)) ∧
    (ARP.sniffpack Loopback.ops host_le64 arp_closed buf16 16 3 =
        some ({ arphdr := arp_closed.arphdr, layer2 := loop_closed,
                pcap_eth_tx := arp_closed.pcap_eth_tx }, buf16, 0, -1) ∧
      ARP.sniffpack_buf Loopback.ops host_le64 arp_closed buf16 16 =
        some ({ arphdr := arp_closed.arphdr, layer2 := loop_closed,
                pcap_eth_tx := arp_closed.pcap_eth_tx }, buf16, -1)) :=
  ⟨(sniffpack_timeout_zero_failure_minus_one Loopback.ops host_le64 arp_open buf16 16 3
      { loop_open with timedout := true } buf16 0 0 rfl).1 rfl rfl,
   (sniffpack_timeout_zero_failure_minus_one Loopback.ops host_le64 arp_closed buf16 16 3
      loop_closed buf16 0 (-1) rfl).2 (by decide)⟩

/-! ## Round trip -/

/-- C7: for every header `h` of the sender and payload `P` with
`len(P) + sizeof(arphdr) <= max_packet_size`, `sendpack(P)` passes its guard and hands
`Layer2::sendpack` the buffer `tbuf` with the length `len(P) + sizeof(arphdr)`, and when the
transmitter takes it `sendpack` returns its non-negative result; when a receiver's Layer2
read delivers these octets behind its cursor, `sniffpack(string)` succeeds,
the receiver's header has the memory image of `h` and the same `get_op()`, equals `h` when
both hosts have the same byte order, and the string returned has
`sizeof(arphdr) + len(P)` octets, the header image followed by `P`. -/
theorem sendpack_sniffpack_roundtrip {L R : Type} (tx_ops : Layer2 L) (rx_ops : Layer2 R)
    (host rhost : Host) (n : Numbers) (a : ARP L) (b : ARP R) (P stack s0 : List Byte)
    (l2 : R) (s1 : List Byte) (off1 r : Int)
    (hmax : n.max_packet_size < 2 ^ host.size_bits)
    (hfit : P.length + sizeof_arphdr ≤ n.max_packet_size)
    (htx : 0 ≤ (tx_ops.sendpack a.layer2 (sendpack_tbuf host n a.arphdr P P.length)
      (P.length + sizeof_arphdr)).2)
    (hres : rx_ops.sniffpack b.layer2 stack n.max_packet_size 0 = (l2, s1, off1, r))
    (h0 : 0 ≤ off1) (hr : r = off1 + ((P.length + sizeof_arphdr : Nat) : Int))
    (hlen : r ≤ (s1.length : Int))
    (hframe : (s1.drop off1.toNat).take (P.length + sizeof_arphdr) =
      (sendpack_tbuf host n a.arphdr P P.length).take (P.length + sizeof_arphdr)) :
    ARP.sendpack_string tx_ops host n a P =
        some ({ arphdr := a.arphdr, pcap_eth_tx := a.pcap_eth_tx,
                layer2 := (tx_ops.sendpack a.layer2 (sendpack_tbuf host n a.arphdr P P.length)
                  (P.length + sizeof_arphdr)).1 },
              (tx_ops.sendpack a.layer2 (sendpack_tbuf host n a.arphdr P P.length)
                  (P.length + sizeof_arphdr)).2) ∧
      (∃ (a2 : ARP L) (ret : Int),
        ARP.sendpack_string tx_ops host n a P = some (a2, ret) ∧ 0 ≤ ret ∧
          a2.arphdr = a.arphdr) ∧
      ∃ (h : arphdr) (pay : List Byte),
        ARP.sniffpack_string rx_ops rhost n b stack s0 =
          some ({ arphdr := h, layer2 := l2, pcap_eth_tx := b.pcap_eth_tx }, pay) ∧
        h.bytes rhost = a.arphdr.bytes host ∧
        ntohs rhost h.ar_op = ARP.get_op host a ∧
        (rhost.little_endian = host.little_endian → h = a.arphdr) ∧
        pay.length = sizeof_arphdr + P.length ∧
        pay = a.arphdr.bytes host ++ P ∧
        pay.drop sizeof_arphdr = P := by
  have hs8 : sizeof_arphdr = 8 := rfl
  have hsend := sendpack_accept tx_ops host n a P P.length hmax hfit (Nat.le_refl _)
  have htake := sendpack_tbuf_take host n a.arphdr P P.length (Nat.le_refl _)
  rw [List.take_length] at htake
  rw [Nat.add_comm P.length sizeof_arphdr, htake] at hframe
  obtain ⟨h, hh, hsn⟩ := sniffpack_string_parsed rx_ops rhost n b stack s0 l2 s1 off1 r hres
    h0 (by omega) hlen
  have hn : (r - off1).toNat = sizeof_arphdr + P.length := by omega
  rw [hn, hframe] at hsn
  have hhdr : (s1.drop off1.toNat).take sizeof_arphdr = a.arphdr.bytes host := by
    have e := congrArg (List.take sizeof_arphdr) hframe
    rw [List.take_take, Nat.min_eq_left (Nat.le_add_right _ _)] at e
    rw [e, ← arphdr_bytes_length host a.arphdr, List.take_left]
  rw [hhdr] at hh
  have himg : h.bytes rhost = a.arphdr.bytes host := arphdr_bytes_ofBytes rhost _ h hh
  refine ⟨hsend, ⟨_, _, hsend, htx, rfl⟩, h, a.arphdr.bytes host ++ P, hsn, himg, ?_,
    fun hf => ?_, ?_, rfl, ?_⟩
  · exact ntohs_of_store16_eq rhost host _ _ (arphdr_op_of_bytes_eq rhost host _ _ himg)
  · rw [← arphdr_bytes_flag rhost host a.arphdr hf] at himg
    exact arphdr_bytes_injective rhost _ _ himg
  · rw [List.length_append, arphdr_bytes_length]
  · rw [← arphdr_bytes_length host a.arphdr, List.drop_left]

/-- Witness of C7: the payload 1, 2, 3 under a ceiling of sixteen, sent and captured by the
same object over the in-memory channel, which frames it with two octets. -/
theorem sendpack_sniffpack_roundtrip_witness :
    (ARP.sendpack_string Loopback.ops host_le64 numbers_small arp_open [1, 2, 3] =
        some ({ arphdr := arp_open.arphdr, pcap_eth_tx := arp_open.pcap_eth_tx,
                layer2 := (Loopback.ops.sendpack arp_open.layer2
                  (sendpack_tbuf host_le64 numbers_small arp_open.arphdr [1, 2, 3]
                    ([1, 2, 3] : List Byte).length)
                  (([1, 2, 3] : List Byte).length + sizeof_arphdr)).1 },
              (Loopback.ops.sendpack arp_open.layer2
                  (sendpack_tbuf host_le64 numbers_small arp_open.arphdr [1, 2, 3]
                    ([1, 2, 3] : List Byte).length)
                  (([1, 2, 3] : List Byte).length + sizeof_arphdr)).2) ∧
      (∃ (a2 : ARP Loopback) (ret : Int),
        ARP.sendpack_string Loopback.ops host_le64 numbers_small arp_open [1, 2, 3] =
          some (a2, ret) ∧ 0 ≤ ret ∧ a2.arphdr = arp_open.arphdr) ∧
      ∃ (h : arphdr) (pay : List Byte),
        ARP.sniffpack_string Loopback.ops host_le64 numbers_small arp_sent buf16 [] =
          some ({ arphdr := h, layer2 := loop_open, pcap_eth_tx := arp_sent.pcap_eth_tx },
                pay) ∧
        h.bytes host_le64 = arp_open.arphdr.bytes host_le64 ∧
        ntohs host_le64 h.ar_op = ARP.get_op host_le64 arp_open ∧
        (host_le64.little_endian = host_le64.little_endian → h = arp_open.arphdr) ∧
        pay.length = sizeof_arphdr + ([1, 2, 3] : List Byte).length ∧
        pay = arp_open.arphdr.bytes host_le64 ++ [1, 2, 3] ∧
        pay.drop sizeof_arphdr = [1, 2, 3]) ∧
      (ARP.sendpack_string Loopback.ops host_le64 numbers_small arp_open [1, 2, 3]).map
          (fun x => x.1.layer2) = some arp_sent.layer2 ∧
      (ARP.sniffpack_string Loopback.ops host_le64 numbers_small arp_sent buf16 []).map
          (fun x => (x.1.arphdr, x.2)) =
        some (arp_open.arphdr, [0, 1, 8, 0, 6, 4, 0, 1, 1, 2, 3]) :=
  ⟨sendpack_sniffpack_roundtrip Loopback.ops Loopback.ops host_le64 host_le64 numbers_small
      arp_open arp_sent [1, 2, 3] buf16 [] loop_open
      [0xAA, 0xBB, 0, 1, 8, 0, 6, 4, 0, 1, 1, 2, 3, 0, 0, 0] 2 13
      (by decide) (by decide) (by decide) rfl (by decide) (by decide) (by decide)
      (by decide),
    by decide, by decide⟩

end usipp
